import Mathlib

/-!
Shallow embedding of the request-governance layer of the goodreads-scraper
repository: the TTL cache (`internal/cache/memory.go`) and the per-IP rate
limiter (`internal/middleware`, wired in `internal/api/handlers.go`).

Time is modelled as an integer timestamp (`Int`, mirroring Go's monotonic
nanosecond clock) for the cache, and as a rational number of seconds for the
token buckets. Every call to `time.Now()` in the Go source becomes an explicit
`now` parameter. The Go map `map[string]V` is modelled as an association list
`List (String × V)` whose insert removes any previous binding, so lookup and
size agree with the Go map.
-/

set_option autoImplicit false

/-- Association-list lookup, mirroring a Go map read `m[k]`. -/
def assocFind {β : Type} (k : String) : List (String × β) → Option β
  | [] => none
  | p :: l => if p.1 = k then some p.2 else assocFind k l

@[simp] theorem assocFind_nil {β : Type} (k : String) :
    assocFind (β := β) k [] = none := rfl

@[simp] theorem assocFind_cons {β : Type} (k : String) (p : String × β)
    (l : List (String × β)) :
    assocFind k (p :: l) = if p.1 = k then some p.2 else assocFind k l := rfl

theorem assocFind_filter_ne {β : Type} (l : List (String × β)) (a k : String)
    (h : ¬ k = a) :
    assocFind k (l.filter fun p => p.1 ≠ a) = assocFind k l := by
  induction l with
  | nil => rfl
  | cons p l ih =>
      by_cases hpa : p.1 = a
      · have hcond : ¬ ((fun p : String × β => decide (p.1 ≠ a)) p = true) := by
          simp [hpa]
        rw [List.filter_cons, if_neg hcond, ih, assocFind_cons,
          if_neg (fun hk : p.1 = k => h (hk.symm.trans hpa))]
      · have hcond : (fun p : String × β => decide (p.1 ≠ a)) p = true := by
          simp [hpa]
        rw [List.filter_cons, if_pos hcond, assocFind_cons, assocFind_cons, ih]

theorem assocFind_filter_none {β : Type} (l : List (String × β))
    (f : String × β → Bool) (k : String) (h : assocFind k l = none) :
    assocFind k (l.filter f) = none := by
  induction l with
  | nil => rfl
  | cons p l ih =>
      have hpk : ¬ p.1 = k := by
        intro hpk
        rw [assocFind_cons, if_pos hpk] at h
        exact Option.noConfusion h
      rw [assocFind_cons, if_neg hpk] at h
      rw [List.filter_cons]
      by_cases hf : f p = true
      · rw [if_pos hf, assocFind_cons, if_neg hpk]
        exact ih h
      · rw [if_neg hf]
        exact ih h

/-! ## TTL cache (`internal/cache/memory.go`) -/

/-- Go's `time.Time.After`: `t.After(u)` holds iff `t` is strictly later. -/
def timeAfter (t u : Int) : Bool := decide (u < t)

/-- CacheItem from `memory.go`: an opaque payload with an absolute expiry. -/
structure CacheItem (α : Type) where
  data : α
  expiresAt : Int
deriving DecidableEq

/-- MemoryCache from `memory.go`: the store plus the configured TTL.
The mutex guards concurrency only and has no sequential meaning. -/
structure MemoryCache (α : Type) where
  data : List (String × CacheItem α)
  ttl : Int
deriving DecidableEq

/-- NewMemoryCache from `memory.go`: empty store, the given TTL. -/
def NewMemoryCache (α : Type) (ttl : Int) : MemoryCache α := ⟨[], ttl⟩

/-- Get from `memory.go`: `none` models the Go return `(nil, false)`,
`some v` models `(v, true)`. Found iff the key is present and
`!now.After(expiresAt)`. -/
def MemoryCache.Get {α : Type} (c : MemoryCache α) (key : String) (now : Int) :
    Option α :=
  match assocFind key c.data with
  | none => none
  | some item => if timeAfter now item.expiresAt then none else some item.data

/-- Set from `memory.go`: binds `key` to the value with
`expiresAt = now + ttl`, replacing any previous binding. -/
def MemoryCache.Set {α : Type} (c : MemoryCache α) (key : String) (value : α)
    (now : Int) : MemoryCache α :=
  { c with data := (key, ⟨value, now + c.ttl⟩) ::
      c.data.filter fun p => p.1 ≠ key }

/-- Delete from `memory.go`: removes the binding for `key` if present. -/
def MemoryCache.Delete {α : Type} (c : MemoryCache α) (key : String) :
    MemoryCache α :=
  { c with data := c.data.filter fun p => p.1 ≠ key }

/-- One pass of the cleanup goroutine from `memory.go`: deletes every entry
with `now.After(expiresAt)`. -/
def MemoryCache.cleanupPass {α : Type} (c : MemoryCache α) (now : Int) :
    MemoryCache α :=
  { c with data := c.data.filter fun p => ! timeAfter now p.2.expiresAt }

/-- The statistics record returned by Stats in `memory.go`. -/
structure CacheStats where
  total : Nat
  active : Nat
  expired : Nat
deriving DecidableEq

/-- Stats from `memory.go`: `total` is the physical size of the store,
`expired` counts entries with `now.After(expiresAt)`, `active` is the
difference. -/
def MemoryCache.Stats {α : Type} (c : MemoryCache α) (now : Int) : CacheStats :=
  let total := c.data.length
  let expired := (c.data.filter fun p => timeAfter now p.2.expiresAt).length
  ⟨total, total - expired, expired⟩

/-- The cache operations a caller can perform, for stating trace properties. -/
inductive CacheOp (α : Type) where
  | set (key : String) (value : α) (now : Int)
  | del (key : String)
  | sweep (now : Int)
deriving DecidableEq

/-- Whether an operation is a `Set` of the given key. -/
def CacheOp.setsKey {α : Type} (op : CacheOp α) (key : String) : Bool :=
  match op with
  | .set k _ _ => k = key
  | .del _ => false
  | .sweep _ => false

/-- Run one operation against the cache. -/
def MemoryCache.exec {α : Type} (c : MemoryCache α) : CacheOp α → MemoryCache α
  | .set k v t => c.Set k v t
  | .del k => c.Delete k
  | .sweep t => c.cleanupPass t

/-- Run a sequence of operations against the cache, oldest first. -/
def MemoryCache.execAll {α : Type} (c : MemoryCache α) (ops : List (CacheOp α)) :
    MemoryCache α :=
  ops.foldl MemoryCache.exec c

theorem exec_find_none {α : Type} (c : MemoryCache α) (key : String)
    (op : CacheOp α) (h0 : assocFind key c.data = none)
    (hop : op.setsKey key = false) :
    assocFind key (c.exec op).data = none := by
  cases op with
  | set k v t =>
      have hk : ¬ k = key := by
        simp [CacheOp.setsKey] at hop
        exact hop
      show assocFind key
        ((k, (⟨v, t + c.ttl⟩ : CacheItem α)) ::
          c.data.filter fun p => p.1 ≠ k) = none
      rw [assocFind_cons, if_neg hk,
        assocFind_filter_ne _ _ _ (fun h => hk h.symm)]
      exact h0
  | del k =>
      exact assocFind_filter_none _ _ _ h0
  | sweep t =>
      exact assocFind_filter_none _ _ _ h0

theorem execAll_find_none {α : Type} (c : MemoryCache α) (key : String)
    (ops : List (CacheOp α)) (h0 : assocFind key c.data = none)
    (h : (ops.all fun op => ! op.setsKey key) = true) :
    assocFind key (c.execAll ops).data = none := by
  induction ops generalizing c with
  | nil => simpa [MemoryCache.execAll] using h0
  | cons op ops ih =>
      simp only [List.all_cons, Bool.and_eq_true, Bool.not_eq_true'] at h
      have step := exec_find_none c key op h0 h.1
      simpa [MemoryCache.execAll] using
        ih (c.exec op) step (by simpa using h.2)

/-! ## Per-IP rate limiter (`internal/middleware`, wired in
`internal/api/handlers.go`) -/

/-- Modelled from the spec: the token bucket behind
`golang.org/x/time/rate.Limiter`, an external library whose source is not in
this repository. Per the spec's TokenBucket data model, a bucket holds
`capacity`, `refillRatePerSecond`, a current token count and the time of the
last refill. Token counts are rationals (the library uses float64). -/
structure TokenBucket where
  capacity : ℚ
  refillRate : ℚ
  tokens : ℚ
  lastRefill : ℚ
deriving DecidableEq

/-- Modelled from the spec: lazy refill — tokens grow by
`elapsed * refillRatePerSecond`, capped at `capacity`. -/
def TokenBucket.refill (b : TokenBucket) (now : ℚ) : TokenBucket :=
  { b with
      tokens := min (b.tokens + (now - b.lastRefill) * b.refillRate) b.capacity
      lastRefill := now }

/-- Modelled from the spec: `Allow` refills lazily, then consumes one token
when at least one is available, otherwise leaves the bucket unchanged after
the refill. -/
def TokenBucket.allow (b : TokenBucket) (now : ℚ) : Bool × TokenBucket :=
  let r := b.refill now
  if 1 ≤ r.tokens then (true, { r with tokens := r.tokens - 1 })
  else (false, r)

/-- IPRateLimiter from the middleware source: one bucket per IP plus the
tier's rate and burst constants. -/
structure IPRateLimiter where
  limiters : List (String × TokenBucket)
  limit : ℚ
  burst : Int
deriving DecidableEq

/-- NewIPRateLimiter from the middleware source: empty registry,
`limit = rate.Limit(rps)` (tokens per second), the given burst. -/
def NewIPRateLimiter (rps burst : Int) : IPRateLimiter :=
  ⟨[], (rps : ℚ), burst⟩

/-- Modelled from the spec: the bucket `rate.NewLimiter(i.limit, i.burst)`
creates, initialized to a full token count (`tokens = capacity`). -/
def IPRateLimiter.newBucket (l : IPRateLimiter) (now : ℚ) : TokenBucket :=
  ⟨(l.burst : ℚ), l.limit, (l.burst : ℚ), now⟩

/-- GetLimiter from the middleware source: return the bucket registered for
`ip`, creating and registering a fresh one if absent. -/
def IPRateLimiter.GetLimiter (l : IPRateLimiter) (ip : String) (now : ℚ) :
    TokenBucket × IPRateLimiter :=
  match assocFind ip l.limiters with
  | some b => (b, l)
  | none =>
      (l.newBucket now,
        { l with limiters := (ip, l.newBucket now) :: l.limiters })

/-- Store a bucket back under `ip`, replacing any previous binding. In Go
the bucket is a pointer mutated in place; here the updated bucket is written
back into the registry. -/
def IPRateLimiter.setBucket (l : IPRateLimiter) (ip : String) (b : TokenBucket) :
    IPRateLimiter :=
  { l with limiters := (ip, b) :: l.limiters.filter fun p => p.1 ≠ ip }

/-- The middleware request path: `GetLimiter(ip)` followed by
`ipLimiter.Allow()`, with the mutated bucket persisted in the registry. -/
def IPRateLimiter.Allow (l : IPRateLimiter) (ip : String) (now : ℚ) :
    Bool × IPRateLimiter :=
  let g := l.GetLimiter ip now
  let r := g.1.allow now
  (r.1, g.2.setBucket ip r.2)

/-- CleanupOldEntries from the middleware source: drop every bucket whose
token count equals the burst. -/
def IPRateLimiter.CleanupOldEntries (l : IPRateLimiter) : IPRateLimiter :=
  { l with limiters := l.limiters.filter fun p => p.2.tokens ≠ (l.burst : ℚ) }

/-- The rate-limiting configuration fields of Config in `pkg/config`. -/
structure Config where
  RateLimitPerMinute : Int
  ScrapeRateLimit : Int
deriving DecidableEq

/-- The limiter RateLimitMiddleware constructs from its arguments. -/
def RateLimitMiddlewareLimiter (rps burst : Int) : IPRateLimiter :=
  NewIPRateLimiter rps burst

/-- The limiter ScrapeRateLimitMiddleware constructs from its arguments. -/
def ScrapeRateLimitMiddlewareLimiter (rps burst : Int) : IPRateLimiter :=
  NewIPRateLimiter rps burst

/-- The two limiter instances alive after SetupRoutes in `handlers.go`. -/
structure RouteLimiters where
  general : IPRateLimiter
  scrape : IPRateLimiter
deriving DecidableEq

/-- SetupRoutes from `handlers.go`: the general tier gets
`RateLimitMiddleware(cfg.RateLimitPerMinute, cfg.RateLimitPerMinute)` and the
scrape tier gets
`ScrapeRateLimitMiddleware(cfg.ScrapeRateLimit, cfg.ScrapeRateLimit)`. -/
def SetupRoutesLimiters (cfg : Config) : RouteLimiters :=
  ⟨RateLimitMiddlewareLimiter cfg.RateLimitPerMinute cfg.RateLimitPerMinute,
   ScrapeRateLimitMiddlewareLimiter cfg.ScrapeRateLimit cfg.ScrapeRateLimit⟩

/-- A request admitted through the general tier. -/
def RouteLimiters.allowGeneral (s : RouteLimiters) (ip : String) (now : ℚ) :
    Bool × RouteLimiters :=
  let r := s.general.Allow ip now
  (r.1, { s with general := r.2 })

/-- A request admitted through the scrape tier. -/
def RouteLimiters.allowScrape (s : RouteLimiters) (ip : String) (now : ℚ) :
    Bool × RouteLimiters :=
  let r := s.scrape.Allow ip now
  (r.1, { s with scrape := r.2 })

/-- NewMemoryCache wrapped in `Option` for comparison against the claimed
construction-time validation: the Go constructor has no failure path, so the
result is always `some`. -/
def NewMemoryCacheResult (α : Type) (ttl : Int) : Option (MemoryCache α) :=
  some (NewMemoryCache α ttl)

/-- NewIPRateLimiter wrapped in `Option` for comparison against the claimed
construction-time validation: the Go constructor has no failure path, so the
result is always `some`. -/
def NewIPRateLimiterResult (rps burst : Int) : Option IPRateLimiter :=
  some (NewIPRateLimiter rps burst)

/-- Follows the claim's words (construction rejects a non-positive TTL), for
comparison with `NewMemoryCacheResult`. -/
def NewMemoryCacheRejecting (α : Type) (ttl : Int) : Option (MemoryCache α) :=
  if ttl ≤ 0 then none else some (NewMemoryCache α ttl)

/-- Follows the claim's words (construction rejects a non-positive capacity
or rate), for comparison with `NewIPRateLimiterResult`. -/
def NewIPRateLimiterRejecting (rps burst : Int) : Option IPRateLimiter :=
  if rps ≤ 0 ∨ burst ≤ 0 then none else some (NewIPRateLimiter rps burst)

/-! ## Shared lemmas about the cache operations -/

theorem assocFind_set_self {α : Type} (c : MemoryCache α) (key : String)
    (v : α) (now : Int) :
    assocFind key (c.Set key v now).data = some ⟨v, now + c.ttl⟩ := by
  show assocFind key
    ((key, (⟨v, now + c.ttl⟩ : CacheItem α)) ::
      c.data.filter fun p => p.1 ≠ key) = _
  rw [assocFind_cons, if_pos rfl]

theorem assocFind_set_other {α : Type} (c : MemoryCache α) (key : String)
    (v : α) (now : Int) (k' : String) (h : ¬ k' = key) :
    assocFind k' (c.Set key v now).data = assocFind k' c.data := by
  show assocFind k'
    ((key, (⟨v, now + c.ttl⟩ : CacheItem α)) ::
      c.data.filter fun p => p.1 ≠ key) = _
  rw [assocFind_cons, if_neg (fun hk : key = k' => h hk.symm),
    assocFind_filter_ne _ _ _ h]

/-! ## Claim theorems for the cache -/

/-- Claim C1 counterexample: with TTL 0, a key Set at time 0 has
`expiresAt = 0`, and at `now = 0` the expiration time is reached
(`¬ now < expiresAt`), yet `Get` still returns the value: the code's
visibility test is `now ≤ expiresAt`, not `now < expiresAt`. -/
theorem get_boundary_counterexample :
    ((NewMemoryCache Nat 0).Set "k" 7 0).Get "k" 0 = some 7
    ∧ assocFind "k" ((NewMemoryCache Nat 0).Set "k" 7 0).data = some ⟨7, 0⟩
    ∧ ¬ ((0 : Int) < (0 : Int)) := by
  refine ⟨?_, ?_, by decide⟩ <;> decide

/-- Claim C1 (amended): `Get key` returns `(v, true)` iff an entry for `key`
is physically present with value `v` and `now ≤ expiresAt` (the code treats
an entry as visible up to and including its expiration instant); in every
other case it returns not-found, and in particular `Get` returns not-found
for every key never Set, over any sequence of operations from a fresh
cache. -/
theorem get_visible_iff_not_expired (α : Type) (c : MemoryCache α)
    (key : String) (now : Int) :
    (∀ v : α, c.Get key now = some v ↔
      ∃ item : CacheItem α, assocFind key c.data = some item ∧
        item.data = v ∧ now ≤ item.expiresAt)
    ∧ (∀ (ttl : Int) (ops : List (CacheOp α)),
        (ops.all fun op => ! op.setsKey key) = true →
        ((NewMemoryCache α ttl).execAll ops).Get key now = none) := by
  constructor
  · intro v
    cases hfind : assocFind key c.data with
    | none => simp [MemoryCache.Get, hfind]
    | some item =>
        by_cases hexp : item.expiresAt < now
        · simp [MemoryCache.Get, hfind, timeAfter, hexp, not_le.mpr hexp]
        · have hnow : now ≤ item.expiresAt := not_lt.mp hexp
          simp only [MemoryCache.Get, hfind]
          rw [if_neg (by simp [timeAfter, hexp])]
          constructor
          · intro hv
            exact ⟨item, rfl, Option.some.inj hv, hnow⟩
          · rintro ⟨item', hitem, hv, -⟩
            obtain rfl := Option.some.inj hitem
            exact congrArg some hv
  · intro ttl ops h
    have hnone := execAll_find_none (NewMemoryCache α ttl) key ops rfl h
    simp [MemoryCache.Get, hnone]

/-- Witness for C1: concrete instances of both conjuncts. -/
theorem get_visible_iff_not_expired_witness :
    (∃ item : CacheItem Nat,
        assocFind "k" ((NewMemoryCache Nat 5).Set "k" 3 0).data = some item ∧
        item.data = 3 ∧ (2 : Int) ≤ item.expiresAt)
    ∧ ((NewMemoryCache Nat 5).execAll [CacheOp.set "a" 1 0]).Get "b" 7
        = none := by
  constructor
  · exact ((get_visible_iff_not_expired Nat
      ((NewMemoryCache Nat 5).Set "k" 3 0) "k" 2).1 3).mp (by decide)
  · exact (get_visible_iff_not_expired Nat (NewMemoryCache Nat 5) "b" 7).2 5
      [CacheOp.set "a" 1 0] (by decide)

/-- Claim C3: `Set key v` at time `now` binds `key` to value `v` with
`expiresAt = now + ttl`, wholesale and unconditionally (the statement holds
for every prior state `c`, so any previous entry and its remaining lifetime
are irrelevant), leaves the configured TTL unchanged and touches no other
key. -/
theorem set_overwrites_with_ttl (α : Type) (c : MemoryCache α) (key : String)
    (v : α) (now : Int) :
    assocFind key (c.Set key v now).data = some ⟨v, now + c.ttl⟩
    ∧ (c.Set key v now).ttl = c.ttl
    ∧ ∀ k' : String, ¬ k' = key →
        assocFind k' (c.Set key v now).data = assocFind k' c.data :=
  ⟨assocFind_set_self c key v now, rfl,
   fun k' h => assocFind_set_other c key v now k' h⟩

/-- Witness for C3: overwriting an existing entry resets its expiry. -/
theorem set_overwrites_with_ttl_witness :
    assocFind "k" ((((NewMemoryCache Nat 5).Set "k" 3 0).Set "k" 4 10)).data
      = some ⟨4, 10 + 5⟩
    ∧ assocFind "a" ((((NewMemoryCache Nat 5).Set "k" 3 0).Set "k" 4 10)).data
      = assocFind "a" (((NewMemoryCache Nat 5).Set "k" 3 0)).data := by
  constructor
  · exact (set_overwrites_with_ttl Nat ((NewMemoryCache Nat 5).Set "k" 3 0)
      "k" 4 10).1
  · exact (set_overwrites_with_ttl Nat ((NewMemoryCache Nat 5).Set "k" 3 0)
      "k" 4 10).2.2 "a" (by decide)

/-- Claim C7: immediately after `Set key v` (same timestamp, no intervening
operations), `Get key` returns `(v, true)`, for any nonnegative configured
TTL. -/
theorem get_after_set (α : Type) (c : MemoryCache α) (key : String) (v : α)
    (now : Int) (h : 0 ≤ c.ttl) :
    (c.Set key v now).Get key now = some v := by
  have hb : ¬ (now + c.ttl < now) := not_lt.mpr (le_add_of_nonneg_right h)
  simp [MemoryCache.Get, assocFind_set_self, timeAfter, hb]

/-- Witness for C7 at the repository's default 6-hour TTL in nanoseconds. -/
theorem get_after_set_witness :
    ((NewMemoryCache Nat 21600000000000).Set "stats:user" 3 1000).Get
      "stats:user" 1000 = some 3 :=
  get_after_set Nat (NewMemoryCache Nat 21600000000000) "stats:user" 3 1000
    (by decide)

/-- Claim C4 counterexample: a present entry whose `expiresAt = now`
(`expiresAt ≤ now` holds) is NOT counted as expired by `Stats` — the code
counts `now.After(expiresAt)`, i.e. `expiresAt < now` — so the claimed
`expired` count of 1 is actually 0. -/
theorem stats_boundary_counterexample :
    (((NewMemoryCache Nat 0).Set "k" 7 0).Stats 0).expired = 0
    ∧ (((NewMemoryCache Nat 0).Set "k" 7 0).Stats 0).total = 1
    ∧ assocFind "k" ((NewMemoryCache Nat 0).Set "k" 7 0).data = some ⟨7, 0⟩
    ∧ ((0 : Int) ≤ (0 : Int)) := by
  refine ⟨?_, ?_, ?_, by decide⟩ <;> decide

/-- Claim C4 (amended): `Stats` reports `total` = number of physically
present entries (expired ones included), `expired` = number of present
entries with `expiresAt < now` (strictly past expiry), and
`active = total - expired`; hence `active + expired = total` always. -/
theorem stats_active_plus_expired (α : Type) (c : MemoryCache α) (now : Int) :
    (c.Stats now).total = c.data.length
    ∧ (c.Stats now).expired =
        (c.data.filter fun p => decide (p.2.expiresAt < now)).length
    ∧ (c.Stats now).active = (c.Stats now).total - (c.Stats now).expired
    ∧ (c.Stats now).active + (c.Stats now).expired = (c.Stats now).total := by
  refine ⟨rfl, rfl, rfl, ?_⟩
  have hle : (c.data.filter fun p => timeAfter now p.2.expiresAt).length
      ≤ c.data.length := List.length_filter_le _ _
  show (c.data.length - _) + _ = c.data.length
  exact Nat.sub_add_cancel hle

/-- Claim C5 counterexample: an entry whose `expiresAt = now` satisfies the
claim's removal condition `expiresAt ≤ now`, yet the sweep retains it — the
code removes only entries with `now.After(expiresAt)`, i.e.
`expiresAt < now`. -/
theorem cleanup_boundary_counterexample :
    assocFind "k" (((NewMemoryCache Nat 0).Set "k" 7 0).cleanupPass 0).data
      = some ⟨7, 0⟩
    ∧ ((0 : Int) ≤ (0 : Int)) := by
  refine ⟨?_, by decide⟩
  decide

/-- Claim C5 (amended): one pass of the background sweep at time `now`
removes exactly the entries with `expiresAt < now` (strictly past expiry):
an entry survives the pass, unchanged, iff it was present and
`now ≤ expiresAt`. The configured TTL is untouched. -/
theorem cleanup_removes_exactly_expired (α : Type) (c : MemoryCache α)
    (now : Int) (key : String) (item : CacheItem α) :
    ((key, item) ∈ (c.cleanupPass now).data ↔
      (key, item) ∈ c.data ∧ now ≤ item.expiresAt)
    ∧ (c.cleanupPass now).ttl = c.ttl := by
  refine ⟨?_, rfl⟩
  simp [MemoryCache.cleanupPass, List.mem_filter, timeAfter, not_lt]

/-! ## Shared lemmas about the rate limiter -/

theorem getLimiter_found (l : IPRateLimiter) (ip : String) (now : ℚ)
    (b : TokenBucket) (h : assocFind ip l.limiters = some b) :
    l.GetLimiter ip now = (b, l) := by
  simp [IPRateLimiter.GetLimiter, h]

theorem getLimiter_new (l : IPRateLimiter) (ip : String) (now : ℚ)
    (h : assocFind ip l.limiters = none) :
    l.GetLimiter ip now =
      (l.newBucket now,
        { l with limiters := (ip, l.newBucket now) :: l.limiters }) := by
  simp [IPRateLimiter.GetLimiter, h]

theorem getLimiter_find_other (l : IPRateLimiter) (a b : String) (now : ℚ)
    (h : ¬ b = a) :
    assocFind b ((l.GetLimiter a now).2).limiters = assocFind b l.limiters := by
  cases hfa : assocFind a l.limiters with
  | some bk => rw [getLimiter_found l a now bk hfa]
  | none =>
      rw [getLimiter_new l a now hfa]
      show assocFind b ((a, l.newBucket now) :: l.limiters) = _
      rw [assocFind_cons, if_neg (fun hab : a = b => h hab.symm)]

theorem setBucket_find_other (l : IPRateLimiter) (a b : String)
    (bk : TokenBucket) (h : ¬ b = a) :
    assocFind b (l.setBucket a bk).limiters = assocFind b l.limiters := by
  show assocFind b ((a, bk) :: l.limiters.filter fun p => p.1 ≠ a) = _
  rw [assocFind_cons, if_neg (fun hab : a = b => h hab.symm),
    assocFind_filter_ne _ _ _ h]

theorem allow_preserves_params (l : IPRateLimiter) (ip : String) (now : ℚ) :
    (l.Allow ip now).2.limit = l.limit
    ∧ (l.Allow ip now).2.burst = l.burst := by
  cases hfa : assocFind ip l.limiters with
  | some bk =>
      simp [IPRateLimiter.Allow, IPRateLimiter.setBucket,
        getLimiter_found l ip now bk hfa]
  | none =>
      simp [IPRateLimiter.Allow, IPRateLimiter.setBucket,
        getLimiter_new l ip now hfa]

theorem allow_fst_congr (l1 l2 : IPRateLimiter) (ip : String) (now : ℚ)
    (hl : l1.limit = l2.limit) (hb : l1.burst = l2.burst)
    (hk : assocFind ip l1.limiters = assocFind ip l2.limiters) :
    (l1.Allow ip now).1 = (l2.Allow ip now).1 := by
  cases hfa : assocFind ip l1.limiters with
  | some bk =>
      have hfa2 : assocFind ip l2.limiters = some bk := hk.symm.trans hfa
      simp [IPRateLimiter.Allow, getLimiter_found l1 ip now bk hfa,
        getLimiter_found l2 ip now bk hfa2]
  | none =>
      have hfa2 : assocFind ip l2.limiters = none := hk.symm.trans hfa
      simp [IPRateLimiter.Allow, getLimiter_new l1 ip now hfa,
        getLimiter_new l2 ip now hfa2, IPRateLimiter.newBucket, hl, hb]

theorem allow_step_some (l : IPRateLimiter) (ip : String) (now : ℚ)
    (bk : TokenBucket) (h : assocFind ip l.limiters = some bk) :
    l.Allow ip now = ((bk.allow now).1, l.setBucket ip (bk.allow now).2) := by
  simp [IPRateLimiter.Allow, getLimiter_found l ip now bk h]

theorem allow_step_none (l : IPRateLimiter) (ip : String) (now : ℚ)
    (h : assocFind ip l.limiters = none) :
    l.Allow ip now = (((l.newBucket now).allow now).1,
      ({ l with limiters := (ip, l.newBucket now) :: l.limiters }).setBucket
        ip ((l.newBucket now).allow now).2) := by
  simp [IPRateLimiter.Allow, getLimiter_new l ip now h]

theorem bucket_zero_rate_allow (cap tok last now : ℚ) (hc : tok ≤ cap) :
    (TokenBucket.mk cap 0 tok last).allow now =
      if 1 ≤ tok then (true, TokenBucket.mk cap 0 (tok - 1) now)
      else (false, TokenBucket.mk cap 0 tok now) := by
  simp only [TokenBucket.allow, TokenBucket.refill, mul_zero, add_zero,
    min_eq_left hc]

/-! ## Claim theorems for the rate limiter -/

/-- Claim C2: `Allow` first refills the bucket by elapsed time times the
refill rate, capped at capacity, then consumes exactly one token and returns
`true` when at least one token is available, and returns `false` leaving the
token count unchanged otherwise; with capacity 2 and refill rate 0 (so no
refill occurs in the window), two consecutive `Allow` calls for the same
identity return `true` and a third returns `false`, whatever the call
times. -/
theorem allow_refill_then_consume (b : TokenBucket) (now : ℚ) (id : String)
    (t1 t2 t3 : ℚ) :
    (b.refill now).tokens
      = min (b.tokens + (now - b.lastRefill) * b.refillRate) b.capacity
    ∧ (1 ≤ (b.refill now).tokens →
        (b.allow now).1 = true
        ∧ (b.allow now).2.tokens = (b.refill now).tokens - 1)
    ∧ ((b.refill now).tokens < 1 →
        (b.allow now).1 = false ∧ (b.allow now).2 = b.refill now)
    ∧ (((NewIPRateLimiter 0 2).Allow id t1).1 = true
        ∧ ((((NewIPRateLimiter 0 2).Allow id t1).2).Allow id t2).1 = true
        ∧ ((((((NewIPRateLimiter 0 2).Allow id t1).2).Allow id t2).2).Allow
            id t3).1 = false) := by
  refine ⟨rfl, ?_, ?_, ?_⟩
  · intro h
    constructor
    · simp [TokenBucket.allow, h]
    · simp [TokenBucket.allow, h]
  · intro h
    have h' : ¬ (1 ≤ (b.refill now).tokens) := not_le.mpr h
    constructor
    · simp [TokenBucket.allow, h']
    · simp [TokenBucket.allow, h']
  · have hnb : (NewIPRateLimiter 0 2).newBucket t1 = TokenBucket.mk 2 0 2 t1 := by
      simp [IPRateLimiter.newBucket, NewIPRateLimiter]
    have hb1 : (NewIPRateLimiter 0 2).Allow id t1
        = (true, ⟨[(id, ⟨2, 0, 1, t1⟩)], 0, 2⟩) := by
      rw [allow_step_none (NewIPRateLimiter 0 2) id t1 rfl, hnb,
        bucket_zero_rate_allow 2 2 t1 t1 (le_refl 2)]
      rw [if_pos (by norm_num : (1 : ℚ) ≤ 2)]
      simp [IPRateLimiter.setBucket, NewIPRateLimiter]
      norm_num
    have hb2 : (IPRateLimiter.mk [(id, ⟨2, 0, 1, t1⟩)] 0 2).Allow id t2
        = (true, ⟨[(id, ⟨2, 0, 0, t2⟩)], 0, 2⟩) := by
      rw [allow_step_some _ id t2 ⟨2, 0, 1, t1⟩ (by simp),
        bucket_zero_rate_allow 2 1 t1 t2 (by norm_num)]
      rw [if_pos (le_refl (1 : ℚ))]
      simp [IPRateLimiter.setBucket]
    have hb3 : (IPRateLimiter.mk [(id, ⟨2, 0, 0, t2⟩)] 0 2).Allow id t3
        = (false, ⟨[(id, ⟨2, 0, 0, t3⟩)], 0, 2⟩) := by
      rw [allow_step_some _ id t3 ⟨2, 0, 0, t2⟩ (by simp),
        bucket_zero_rate_allow 2 0 t2 t3 (by norm_num)]
      rw [if_neg (by norm_num : ¬ ((1 : ℚ) ≤ 0))]
      simp [IPRateLimiter.setBucket]
    refine ⟨?_, ?_, ?_⟩
    · rw [hb1]
    · rw [hb1]
      show ((IPRateLimiter.mk [(id, ⟨2, 0, 1, t1⟩)] 0 2).Allow id t2).1 = true
      rw [hb2]
    · rw [hb1]
      show (((IPRateLimiter.mk [(id, ⟨2, 0, 1, t1⟩)] 0 2).Allow id
        t2).2.Allow id t3).1 = false
      rw [hb2]
      show ((IPRateLimiter.mk [(id, ⟨2, 0, 0, t2⟩)] 0 2).Allow id t3).1
        = false
      rw [hb3]

/-- Witness for C2: a full bucket admits, an empty one denies, and the
capacity-2, rate-0 scenario runs concretely. -/
theorem allow_refill_then_consume_witness :
    ((TokenBucket.mk 2 0 2 0).allow 1).1 = true
    ∧ ((TokenBucket.mk 2 0 0 0).allow 1).1 = false
    ∧ (((NewIPRateLimiter 0 2).Allow "X" 0).1 = true
        ∧ ((((NewIPRateLimiter 0 2).Allow "X" 0).2).Allow "X" 0).1 = true
        ∧ ((((((NewIPRateLimiter 0 2).Allow "X" 0).2).Allow "X" 0).2).Allow
            "X" 0).1 = false) := by
  refine ⟨?_, ?_, ?_⟩
  · exact ((allow_refill_then_consume (TokenBucket.mk 2 0 2 0) 1 "X" 0 0
      0).2.1 (by norm_num [TokenBucket.refill])).1
  · exact ((allow_refill_then_consume (TokenBucket.mk 2 0 0 0) 1 "X" 0 0
      0).2.2.1 (by norm_num [TokenBucket.refill])).1
  · exact (allow_refill_then_consume (TokenBucket.mk 2 0 2 0) 1 "X" 0 0
      0).2.2.2

/-- Claim C6: `NewIPRateLimiter(rps, burst)` stores `rps` as a tokens-per-
second rate, and SetupRoutes passes the per-minute configuration values
(`RateLimitPerMinute`, `ScrapeRateLimit`) directly as both that per-second
rate and the burst capacity, so in each tier a fully drained bucket refills
to full capacity within one second. -/
theorem per_minute_config_used_as_per_second_rate (cfg : Config) (t : ℚ) :
    (SetupRoutesLimiters cfg).general.limit = (cfg.RateLimitPerMinute : ℚ)
    ∧ (SetupRoutesLimiters cfg).general.burst = cfg.RateLimitPerMinute
    ∧ (SetupRoutesLimiters cfg).scrape.limit = (cfg.ScrapeRateLimit : ℚ)
    ∧ (SetupRoutesLimiters cfg).scrape.burst = cfg.ScrapeRateLimit
    ∧ (({ (SetupRoutesLimiters cfg).general.newBucket t with
          tokens := 0 }).refill (t + 1)).tokens
        = ((SetupRoutesLimiters cfg).general.newBucket t).capacity
    ∧ (({ (SetupRoutesLimiters cfg).scrape.newBucket t with
          tokens := 0 }).refill (t + 1)).tokens
        = ((SetupRoutesLimiters cfg).scrape.newBucket t).capacity := by
  refine ⟨rfl, rfl, rfl, rfl, ?_, ?_⟩ <;>
    simp [TokenBucket.refill, IPRateLimiter.newBucket, SetupRoutesLimiters,
      RateLimitMiddlewareLimiter, ScrapeRateLimitMiddlewareLimiter,
      NewIPRateLimiter, add_sub_cancel_left, one_mul, zero_add, min_self]

/-- Claim C8: `GetLimiter` returns the registered bucket when one exists
(leaving the registry unchanged), otherwise registers exactly one fresh
bucket initialized to a full token count equal to the capacity; an
immediately repeated call returns the very same bucket and changes
nothing, so one bucket exists per identity. -/
theorem getlimiter_unique_bucket (l : IPRateLimiter) (ip : String)
    (t t' : ℚ) :
    (∀ b : TokenBucket, assocFind ip l.limiters = some b →
        l.GetLimiter ip t = (b, l))
    ∧ (assocFind ip l.limiters = none →
        l.GetLimiter ip t =
          (l.newBucket t,
            { l with limiters := (ip, l.newBucket t) :: l.limiters })
        ∧ (l.newBucket t).tokens = (l.newBucket t).capacity
        ∧ assocFind ip ((l.GetLimiter ip t).2).limiters
            = some (l.newBucket t))
    ∧ ((l.GetLimiter ip t).2).GetLimiter ip t'
        = ((l.GetLimiter ip t).1, (l.GetLimiter ip t).2) := by
  refine ⟨fun b h => getLimiter_found l ip t b h, ?_, ?_⟩
  · intro h
    refine ⟨getLimiter_new l ip t h, rfl, ?_⟩
    rw [getLimiter_new l ip t h]
    show assocFind ip ((ip, l.newBucket t) :: l.limiters) = _
    rw [assocFind_cons, if_pos rfl]
  · cases hfa : assocFind ip l.limiters with
    | some b =>
        rw [getLimiter_found l ip t b hfa]
        exact getLimiter_found l ip t' b hfa
    | none =>
        rw [getLimiter_new l ip t hfa]
        refine getLimiter_found _ ip t' (l.newBucket t) ?_
        show assocFind ip ((ip, l.newBucket t) :: l.limiters) = _
        rw [assocFind_cons, if_pos rfl]

/-- Witness for C8: the first request from a fresh identity creates one full
bucket. -/
theorem getlimiter_unique_bucket_witness :
    (NewIPRateLimiter 1 2).GetLimiter "a" 0 =
      ((NewIPRateLimiter 1 2).newBucket 0,
        { NewIPRateLimiter 1 2 with
            limiters := [("a", (NewIPRateLimiter 1 2).newBucket 0)] })
    ∧ ((NewIPRateLimiter 1 2).newBucket 0).tokens
        = ((NewIPRateLimiter 1 2).newBucket 0).capacity := by
  have h := (getlimiter_unique_bucket (NewIPRateLimiter 1 2) "a" 0 0).2.1 rfl
  exact ⟨h.1, h.2.1⟩

/-- Claim C9: `Allow` for identity A reads and writes only A's bucket: the
bucket registered for any other identity B is untouched, and the outcome of
B's next `Allow` is exactly what it would have been without A's call; the
general and scrape tiers are separate instances — admitting through one
leaves the other tier's limiter untouched — and SetupRoutes starts both from
empty registries sharing no identity state. -/
theorem allow_frame_independence (l : IPRateLimiter) (a b : String)
    (hab : ¬ b = a) (ta tb : ℚ) (s : RouteLimiters) (ip : String) (t : ℚ)
    (cfg : Config) :
    assocFind b ((l.Allow a ta).2).limiters = assocFind b l.limiters
    ∧ ((l.Allow a ta).2.Allow b tb).1 = (l.Allow b tb).1
    ∧ (s.allowGeneral ip t).2.scrape = s.scrape
    ∧ (s.allowScrape ip t).2.general = s.general
    ∧ (SetupRoutesLimiters cfg).general.limiters = []
    ∧ (SetupRoutesLimiters cfg).scrape.limiters = [] := by
  have h1 : assocFind b ((l.Allow a ta).2).limiters
      = assocFind b l.limiters := by
    show assocFind b (((l.GetLimiter a ta).2).setBucket a
      (((l.GetLimiter a ta).1).allow ta).2).limiters = _
    rw [setBucket_find_other _ a b _ hab, getLimiter_find_other l a b ta hab]
  refine ⟨h1, ?_, rfl, rfl, rfl, rfl⟩
  exact allow_fst_congr _ l b tb (allow_preserves_params l a ta).1
    (allow_preserves_params l a ta).2 h1

/-- Witness for C9: exhausting identity A does not change identity B's
outcome in a concrete limiter. -/
theorem allow_frame_independence_witness :
    assocFind "B" (((NewIPRateLimiter 1 2).Allow "A" 0).2).limiters
      = assocFind "B" (NewIPRateLimiter 1 2).limiters
    ∧ ((((NewIPRateLimiter 1 2).Allow "A" 0).2).Allow "B" 0).1
      = ((NewIPRateLimiter 1 2).Allow "B" 0).1 := by
  have h := allow_frame_independence (NewIPRateLimiter 1 2) "A" "B"
    (by decide) 0 0 ⟨NewIPRateLimiter 1 2, NewIPRateLimiter 1 2⟩ "A" 0 ⟨60, 10⟩
  exact ⟨h.1, h.2.1⟩

/-- Claim C10 counterexample: construction does not reject invalid
configuration — `NewMemoryCache` accepts the non-positive TTL `-1` and
`NewIPRateLimiter` accepts rate 0 with capacity 0, while the claimed
rejecting constructors refuse those inputs. -/
theorem construction_rejects_counterexample :
    NewMemoryCacheResult Nat (-1) = some (NewMemoryCache Nat (-1))
    ∧ NewMemoryCacheRejecting Nat (-1) = none
    ∧ NewIPRateLimiterResult 0 0 = some (NewIPRateLimiter 0 0)
    ∧ NewIPRateLimiterRejecting 0 0 = none := by
  refine ⟨rfl, ?_, rfl, ?_⟩
  · simp [NewMemoryCacheRejecting]
  · simp [NewIPRateLimiterRejecting]

/-- Claim C10 (amended): construction rejects nothing: both constructors are
total and succeed on every configuration, including a non-positive TTL,
capacity or rate, and beyond that there is indeed no initialization failure
path — each yields an operational component with an empty store or
registry. -/
theorem construction_is_total (α : Type) (ttl rps burst : Int) :
    NewMemoryCacheResult α ttl = some ⟨[], ttl⟩
    ∧ NewIPRateLimiterResult rps burst = some ⟨[], (rps : ℚ), burst⟩
    ∧ (∀ (key : String) (now : Int),
        (NewMemoryCache α ttl).Get key now = none)
    ∧ (∀ now : Int, ((NewMemoryCache α ttl).Stats now).total = 0) :=
  ⟨rfl, rfl, fun _ _ => rfl, fun _ => rfl⟩
